import Mathlib

/-!
# Mensonge-et-Vérité — verification of the game-session core

Shallow embedding of the server-side game logic of the repository
(`server/routes.ts` and `server/storage.ts`): the card/player/session data
model, the deck generator, and the five session-mutating operations
(create game, add player, remove player, play card, accuse, continue after
revelation).  Randomness (UUIDs, `Math.random`) is made explicit: every
operation takes the fresh identifiers, timestamps and random draws it
consumes as parameters.  Operations that can reject a request return
`Except ApiError GameState`; in the source an error response is produced
before any mutation of the stored session, so an `.error` result models
"session left unchanged" (made explicit by `resultState`).
-/

set_option maxHeartbeats 1000000

namespace MV

/-- The TS `CardType = "truth" | "lie"` (shared/schema). -/
inductive CardType where
  | truth
  | lie
deriving DecidableEq, Repr

/-- A card: opaque id plus its kind (shared/schema `Card`). -/
structure Card where
  id : String
  type : CardType
deriving DecidableEq, Repr

instance : Inhabited Card := ⟨⟨"", CardType.truth⟩⟩

/-- A player (shared/schema `Player`). -/
structure Player where
  id : String
  name : String
  cardCount : Nat
  cards : List Card
  avatar : String
  isOnline : Bool
deriving DecidableEq, Repr

instance : Inhabited Player := ⟨⟨"", "", 0, [], "", true⟩⟩

/-- The TS `GamePhase = "waiting" | "playing" | "accusation" | "revelation" | "finished"`. -/
inductive GamePhase where
  | waiting
  | playing
  | accusation
  | revelation
  | finished
deriving DecidableEq, Repr

/-- The event kinds of shared/schema `GameEvent.type`. -/
inductive EventType where
  | card_played
  | accusation
  | revelation
  | penalty
  | join
  | leave
  | game_start
deriving DecidableEq, Repr

/-- A log entry (shared/schema `GameEvent`). -/
structure GameEvent where
  id : String
  type : EventType
  playerId : String
  playerName : String
  targetId : Option String := none
  targetName : Option String := none
  cardType : Option CardType := none
  timestamp : Nat
  message : String
deriving DecidableEq, Repr

/-- The per-game session state (shared/schema `GameState`). -/
structure GameState where
  id : String
  phase : GamePhase
  players : List Player
  currentPlayerId : String
  centerPile : List Card
  lastPlayedCard : Option Card := none
  lastPlayerId : Option String := none
  revealedCard : Option Card := none
  accusingPlayerId : Option String := none
  events : List GameEvent
  turnTimer : Nat
  maxPlayers : Nat
  minPlayers : Nat
deriving DecidableEq, Repr

/-- The distinct rejection responses of the route handlers / storage. -/
inductive ApiError where
  | gameNotFound
  | playerNotFound
  | notYourTurn
  | cardNotFound
  | noCardToAccuse
  | gameFull
deriving DecidableEq, Repr

/-- JS `Array.prototype.findIndex`, as an `Option Nat` (TS returns `-1` when
no element matches; call sites branch on that case explicitly). -/
def findIndex (p : α → Bool) : List α → Option Nat
  | [] => none
  | x :: xs => if p x then some 0 else (findIndex p xs).map (· + 1)

/-- In-place mutation of the object returned by `Array.prototype.find`:
replace the first element matching the id by its image under `f`. -/
def updateFirst (pid : String) (f : Player → Player) : List Player → List Player
  | [] => []
  | p :: ps => if p.id == pid then f p :: ps else p :: updateFirst pid f ps

/-- One swap `[deck[i], deck[j]] = [deck[j], deck[i]]`; out-of-range indices
leave the list unchanged (they never occur in the shuffle loop). -/
def swapAt (l : List Card) (i j : Nat) : List Card :=
  match l.get? i, l.get? j with
  | some a, some b => (l.set i b).set j a
  | _, _ => l

/-- The Fisher-Yates loop of `MemStorage.createDeck`:
`for (i = len-1; i > 0; i--) { j = floor(random()*(i+1)); swap i j }`.
`jf i` is the raw random draw for index `i`; `jf i % (i+1)` models
`Math.floor(Math.random() * (i + 1)) ∈ [0, i]`. -/
def shuffleAux (jf : Nat → Nat) : Nat → List Card → List Card
  | 0, l => l
  | i + 1, l => shuffleAux jf i (swapAt l (i + 1) (jf (i + 1) % (i + 1 + 1)))

/-- Embeds `MemStorage.createDeck`: 30 truth cards then 30 lie cards, each with a
fresh id (`ids n` is the n-th `randomUUID()` drawn), then Fisher-Yates
shuffled with random draws `jf`. -/
def createDeck (ids : Nat → String) (jf : Nat → Nat) : List Card :=
  let deck : List Card :=
    (List.range 30).map (fun i => ⟨ids i, CardType.truth⟩) ++
      (List.range 30).map (fun i => ⟨ids (30 + i), CardType.lie⟩)
  shuffleAux jf (deck.length - 1) deck

/-- Embeds `createPenaltyCards` (routes.ts): 10 cards, each `Math.random() > 0.5 ?
"truth" : "lie"`; `rand i` is the boolean outcome of that comparison. -/
def createPenaltyCards (ids : Nat → String) (rand : Nat → Bool) : List Card :=
  (List.range 10).map (fun i => ⟨ids i, if rand i then CardType.truth else CardType.lie⟩)

/-- Builder for the event records the handlers push (fields as in the
source literals; `targetId`/`targetName`/`cardType` default to absent). -/
def mkEvent (eid : String) (t : EventType) (pid pname : String) (now : Nat)
    (msg : String) : GameEvent :=
  { id := eid, type := t, playerId := pid, playerName := pname, timestamp := now, message := msg }

/-- Embeds `MemStorage.createGame`: deal the first 7 cards of a fresh deck to the
host, phase `waiting`, host to move, a single `join` event. -/
def createGame (hostPlayer : Player) (gameId : String) (deckIds : Nat → String)
    (jf : Nat → Nat) (eventId : String) (now : Nat) : GameState :=
  let deck := createDeck deckIds jf
  let playerCards := deck.take 7
  { id := gameId
    phase := GamePhase.waiting
    players := [{ hostPlayer with cards := playerCards, cardCount := playerCards.length }]
    currentPlayerId := hostPlayer.id
    centerPile := []
    events := [mkEvent eventId EventType.join hostPlayer.id hostPlayer.name now
      (hostPlayer.name ++ " a créé la partie")]
    turnTimer := 45
    maxPlayers := 6
    minPlayers := 2 }

/-- Embeds `MemStorage.addPlayerToGame` on a session that exists: capacity check,
deal 7 cards from a fresh deck, append the player and a `join` event, then
the two (duplicated in the source) auto-start branches. -/
def addPlayerToGame (game : GameState) (player : Player) (deckIds : Nat → String)
    (jf : Nat → Nat) (joinEventId startEventId : String) (now : Nat) :
    Except ApiError GameState :=
  if game.players.length ≥ game.maxPlayers then Except.error ApiError.gameFull
  else
    let deck := createDeck deckIds jf
    let playerCards := deck.take 7
    let newPlayer : Player := { player with cards := playerCards, cardCount := playerCards.length }
    let g1 : GameState := { game with
      players := game.players ++ [newPlayer],
      events := game.events ++ [mkEvent joinEventId EventType.join player.id player.name now
        (player.name ++ " a rejoint la partie")] }
    let g2 : GameState :=
      if g1.players.length ≥ g1.minPlayers ∧ g1.phase = GamePhase.waiting then
        { g1 with
          phase := GamePhase.playing,
          events := g1.events ++ [mkEvent startEventId EventType.game_start "" "" now
            ("La partie commence avec " ++ toString g1.players.length ++ " joueurs !")] }
      else g1
    let g3 : GameState :=
      if g2.players.length ≥ g2.minPlayers ∧ g2.phase = GamePhase.waiting then
        { g2 with phase := GamePhase.playing }
      else g2
    Except.ok g3

/-- Embeds `MemStorage.removePlayerFromGame` on a session that exists: drop the
player (hand discarded), append a `leave` event, force `finished` when
membership falls below `minPlayers`. -/
def removePlayerFromGame (game : GameState) (playerId : String) (eventId : String)
    (now : Nat) : Except ApiError GameState :=
  match findIndex (fun p => p.id == playerId) game.players with
  | none => Except.error ApiError.playerNotFound
  | some playerIndex =>
    let player := game.players.getD playerIndex default
    let g1 : GameState := { game with
      players := game.players.eraseIdx playerIndex,
      events := game.events ++ [mkEvent eventId EventType.leave player.id player.name now
        (player.name ++ " a quitté la partie")] }
    if g1.players.length < game.minPlayers then
      Except.ok { g1 with phase := GamePhase.finished }
    else
      Except.ok g1

/-- The `/play` route handler on a session that exists: player lookup, turn
check, card lookup, then the move and either the win branch (phase
`finished`, no turn advance) or the circular turn advance. -/
def playCard (game : GameState) (playerId cardId : String) (eventId : String)
    (now : Nat) : Except ApiError GameState :=
  match game.players.find? (fun p => p.id == playerId) with
  | none => Except.error ApiError.playerNotFound
  | some player =>
    if game.currentPlayerId ≠ playerId then Except.error ApiError.notYourTurn
    else
      match findIndex (fun c => c.id == cardId) player.cards with
      | none => Except.error ApiError.cardNotFound
      | some cardIndex =>
        let playedCard := player.cards.getD cardIndex default
        let newCards := player.cards.eraseIdx cardIndex
        let g1 : GameState := { game with
          players := updateFirst playerId
            (fun p => { p with cards := newCards, cardCount := newCards.length }) game.players,
          centerPile := game.centerPile ++ [playedCard],
          lastPlayedCard := some playedCard,
          lastPlayerId := some playerId }
        if newCards.length = 0 then
          Except.ok { g1 with
            phase := GamePhase.finished,
            events := g1.events ++ [mkEvent eventId EventType.card_played player.id
              player.name now (player.name ++ " a gagné la partie !")] }
        else
          let nextIndex :=
            match findIndex (fun p => p.id == playerId) game.players with
            | some currentIndex => (currentIndex + 1) % game.players.length
            | none => 0
          Except.ok { g1 with
            currentPlayerId := (g1.players.getD nextIndex default).id,
            events := g1.events ++ [mkEvent eventId EventType.card_played player.id
              player.name now (player.name ++ " a joué une carte")] }

/-- The `/accuse` route handler on a session that exists: last-card check,
lookups of both named players, then reveal and the 3-card penalty draw.
The penalised object is the one found under `accusedPlayerId` when the
revealed card was a lie, else the accuser. -/
def accusePlayer (game : GameState) (accusingId accusedId : String)
    (penaltyIds : Nat → String) (penaltyRand : Nat → Bool) (eventId : String)
    (now : Nat) : Except ApiError GameState :=
  match game.lastPlayedCard, game.lastPlayerId with
  | some lastCard, some _ =>
    match game.players.find? (fun p => p.id == accusingId),
        game.players.find? (fun p => p.id == accusedId) with
    | some accusingPlayer, some accusedPlayer =>
      let wasLie := lastCard.type = CardType.lie
      let penaltyTargetId := if wasLie then accusedPlayer.id else accusingPlayer.id
      let deck := createPenaltyCards penaltyIds penaltyRand
      let penaltyCards := deck.take 3
      Except.ok { game with
        phase := GamePhase.revelation,
        revealedCard := some lastCard,
        accusingPlayerId := some accusingId,
        players := updateFirst penaltyTargetId
          (fun p => { p with
            cards := p.cards ++ penaltyCards,
            cardCount := (p.cards ++ penaltyCards).length }) game.players,
        events := game.events ++
          [{ mkEvent eventId EventType.accusation accusingPlayer.id accusingPlayer.name now
              (accusingPlayer.name ++ " a accusé " ++ accusedPlayer.name ++ " - " ++
                (if wasLie then "Mensonge révélé!" else "Vérité révélée!")) with
             targetId := some accusedPlayer.id,
             targetName := some accusedPlayer.name,
             cardType := some lastCard.type }] }
    | _, _ => Except.error ApiError.playerNotFound
  | _, _ => Except.error ApiError.noCardToAccuse

/-- The `/continue` route handler on a session that exists: unconditionally
back to `playing`, clearing the revelation fields. -/
def continueAfterRevelation (game : GameState) : GameState :=
  { game with phase := GamePhase.playing, revealedCard := none, accusingPlayerId := none }

/-- The session stored after a request: the handlers call
`storage.updateGame` (and mutate the stored object) only after every check
has passed, so a rejected request leaves the stored session as it was. -/
def resultState (g : GameState) : Except ApiError GameState → GameState
  | Except.ok g' => g'
  | Except.error _ => g

/-- Sum of all hand sizes of a list of players. -/
def handsSum (l : List Player) : Nat := (l.map (fun p => p.cards.length)).sum

/-- Total number of cards existing in a session: hands plus center pile. -/
def totalCards (g : GameState) : Nat := handsSum g.players + g.centerPile.length

/-- Hand size of the (first) player with the given id, 0 when absent. -/
def handSize (g : GameState) (pid : String) : Nat :=
  match g.players.find? (fun p => p.id == pid) with
  | some p => p.cards.length
  | none => 0

/-- The stored-count consistency invariant: every player's `cardCount`
field equals the length of their hand. -/
def handCountsOk (g : GameState) : Prop := ∀ p ∈ g.players, p.cardCount = p.cards.length

instance (g : GameState) : Decidable (handCountsOk g) := by
  unfold handCountsOk; infer_instance

/-! ## Helper lemmas -/

theorem findIndex_lt_length {p : α → Bool} :
    ∀ {l : List α} {i : Nat}, findIndex p l = some i → i < l.length := by
  intro l
  induction l with
  | nil => intro i h; simp [findIndex] at h
  | cons x xs ih =>
    intro i h
    cases hx : p x with
    | true =>
      simp [findIndex, hx] at h
      subst h
      simp
    | false =>
      simp [findIndex, hx] at h
      obtain ⟨j, hj, rfl⟩ := h
      have := ih hj
      simp only [List.length_cons]
      omega

theorem updateFirst_map_id (pid : String) (f : Player → Player)
    (hf : ∀ q, (f q).id = q.id) :
    ∀ l : List Player, (updateFirst pid f l).map Player.id = l.map Player.id := by
  intro l
  induction l with
  | nil => rfl
  | cons x xs ih =>
    cases hx : x.id == pid with
    | true => simp [updateFirst, hx, hf]
    | false => simp [updateFirst, hx, ih]

theorem updateFirst_getD_id (pid : String) (f : Player → Player)
    (hf : ∀ q, (f q).id = q.id) :
    ∀ (l : List Player) (n : Nat),
      ((updateFirst pid f l).getD n default).id = (l.getD n default).id := by
  intro l
  induction l with
  | nil => intro n; rfl
  | cons x xs ih =>
    intro n
    cases hx : x.id == pid with
    | true =>
      cases n with
      | zero => simp [updateFirst, hx, hf]
      | succ m => simp [updateFirst, hx]
    | false =>
      cases n with
      | zero => simp [updateFirst, hx]
      | succ m => simpa [updateFirst, hx] using ih m

theorem find?_updateFirst_self (pid : String) (f : Player → Player)
    (hf : ∀ q, (f q).id = q.id) :
    ∀ (l : List Player) (p : Player), l.find? (fun q => q.id == pid) = some p →
      (updateFirst pid f l).find? (fun q => q.id == pid) = some (f p) := by
  intro l
  induction l with
  | nil => intro p h; simp at h
  | cons x xs ih =>
    intro p h
    cases hx : x.id == pid with
    | true =>
      simp only [List.find?_cons, hx] at h
      cases h
      have hfx : ((f x).id == pid) = true := by rw [hf]; exact hx
      simp [updateFirst, hx, List.find?_cons, hfx]
    | false =>
      simp only [List.find?_cons, hx] at h
      have := ih p h
      simp [updateFirst, hx, List.find?_cons, this]

theorem find?_updateFirst_ne (pid qid : String) (f : Player → Player)
    (hf : ∀ q, (f q).id = q.id) (hne : pid ≠ qid) :
    ∀ l : List Player,
      (updateFirst qid f l).find? (fun q => q.id == pid) = l.find? (fun q => q.id == pid) := by
  intro l
  induction l with
  | nil => rfl
  | cons x xs ih =>
    cases hx : x.id == qid with
    | true =>
      have hxq : x.id = qid := by simpa using hx
      have hxp : (x.id == pid) = false := by
        simp [hxq]
        exact fun h => hne h.symm
      have hfp : ((f x).id == pid) = false := by rw [hf]; exact hxp
      simp [updateFirst, hx, List.find?_cons, hxp, hfp]
    | false =>
      cases hxp : x.id == pid with
      | true => simp [updateFirst, hx, List.find?_cons, hxp]
      | false => simp [updateFirst, hx, List.find?_cons, hxp, ih]

theorem handsSum_updateFirst (pid : String) (f : Player → Player) :
    ∀ (l : List Player) (p : Player), l.find? (fun q => q.id == pid) = some p →
      handsSum (updateFirst pid f l) + p.cards.length = handsSum l + (f p).cards.length := by
  intro l
  induction l with
  | nil => intro p h; simp at h
  | cons x xs ih =>
    intro p h
    cases hx : x.id == pid with
    | true =>
      simp only [List.find?_cons, hx] at h
      cases h
      simp only [updateFirst, hx, if_pos, handsSum, List.map_cons, List.sum_cons]
      omega
    | false =>
      simp only [List.find?_cons, hx] at h
      have := ih p h
      simp only [updateFirst, hx, Bool.false_eq_true, ite_false, handsSum, List.map_cons,
        List.sum_cons]
      simp only [handsSum] at this
      omega

theorem handCountsOk_updateFirst (pid : String) (f : Player → Player)
    (hP : ∀ q, (f q).cardCount = (f q).cards.length) :
    ∀ l : List Player, (∀ p ∈ l, p.cardCount = p.cards.length) →
      ∀ p ∈ updateFirst pid f l, p.cardCount = p.cards.length := by
  intro l
  induction l with
  | nil => intro _ p h; simp [updateFirst] at h
  | cons x xs ih =>
    intro hl p hp
    cases hx : x.id == pid with
    | true =>
      simp only [updateFirst, hx, if_pos, List.mem_cons] at hp
      rcases hp with h | h
      · rw [h]; exact hP x
      · exact hl p (List.mem_cons_of_mem _ h)
    | false =>
      simp only [updateFirst, hx, Bool.false_eq_true, ite_false, List.mem_cons] at hp
      rcases hp with h | h
      · rw [h]; exact hl x (List.mem_cons_self x xs)
      · exact ih (fun q hq => hl q (List.mem_cons_of_mem _ hq)) p h

theorem cons_set_perm (x : Card) :
    ∀ (xs : List Card) (j : Nat) (b : Card), xs.get? j = some b →
      List.Perm (b :: xs.set j x) (x :: xs) := by
  intro xs
  induction xs with
  | nil => intro j b h; simp at h
  | cons y ys ih =>
    intro j b h
    cases j with
    | zero =>
      simp only [List.get?_cons_zero, Option.some.injEq] at h
      subst h
      simpa using List.Perm.swap x y ys
    | succ m =>
      simp only [List.get?_cons_succ] at h
      have step1 : List.Perm (b :: y :: ys.set m x) (y :: b :: ys.set m x) :=
        List.Perm.swap y b (ys.set m x)
      have step2 : List.Perm (y :: b :: ys.set m x) (y :: x :: ys) :=
        List.Perm.cons y (ih m b h)
      have step3 : List.Perm (y :: x :: ys) (x :: y :: ys) := List.Perm.swap x y ys
      simpa using (step1.trans step2).trans step3

theorem set_set_perm :
    ∀ (l : List Card) (i j : Nat) (a b : Card),
      l.get? i = some a → l.get? j = some b → List.Perm ((l.set i b).set j a) l := by
  intro l
  induction l with
  | nil => intro i j a b hi _; simp at hi
  | cons x xs ih =>
    intro i j a b hi hj
    cases i with
    | zero =>
      simp only [List.get?_cons_zero, Option.some.injEq] at hi
      subst hi
      cases j with
      | zero =>
        simp only [List.get?_cons_zero, Option.some.injEq] at hj
        subst hj
        simp
      | succ m =>
        simp only [List.get?_cons_succ] at hj
        simp only [List.set_cons_zero, List.set_cons_succ]
        exact cons_set_perm x xs m b hj
    | succ n =>
      cases j with
      | zero =>
        simp only [List.get?_cons_zero, Option.some.injEq] at hj
        subst hj
        simp only [List.get?_cons_succ] at hi
        simp only [List.set_cons_succ, List.set_cons_zero]
        exact cons_set_perm x xs n a hi
      | succ m =>
        simp only [List.get?_cons_succ] at hi hj
        simp only [List.set_cons_succ]
        exact List.Perm.cons x (ih n m a b hi hj)

theorem swapAt_perm (l : List Card) (i j : Nat) : List.Perm (swapAt l i j) l := by
  unfold swapAt
  cases hi : l.get? i with
  | none => exact List.Perm.refl l
  | some a =>
    cases hj : l.get? j with
    | none => exact List.Perm.refl l
    | some b => exact set_set_perm l i j a b hi hj

theorem shuffleAux_perm (jf : Nat → Nat) :
    ∀ (n : Nat) (l : List Card), List.Perm (shuffleAux jf n l) l := by
  intro n
  induction n with
  | zero => intro l; exact List.Perm.refl l
  | succ m ih =>
    intro l
    simp only [shuffleAux]
    exact (ih _).trans (swapAt_perm l (m + 1) (jf (m + 1) % (m + 1 + 1)))

theorem createDeck_perm (ids : Nat → String) (jf : Nat → Nat) :
    List.Perm (createDeck ids jf)
      ((List.range 30).map (fun i => ⟨ids i, CardType.truth⟩) ++
        (List.range 30).map (fun i => ⟨ids (30 + i), CardType.lie⟩)) := by
  unfold createDeck
  exact shuffleAux_perm jf _ _

/-! ## Concrete sessions used by witnesses and counterexamples -/

/-- A player with a consistent stored card count, as the handlers build them. -/
def mkPlayer (pid pname : String) (cards : List Card) : Player :=
  { id := pid, name := pname, cardCount := cards.length, cards := cards,
    avatar := "A", isOnline := true }

def pl1 : Player := mkPlayer "p1" "Alice" [⟨"c1", CardType.truth⟩, ⟨"c2", CardType.truth⟩]

def pl2 : Player := mkPlayer "p2" "Bob" [⟨"c3", CardType.truth⟩, ⟨"c4", CardType.lie⟩]

def pl3 : Player := mkPlayer "p3" "Cara" [⟨"c5", CardType.truth⟩, ⟨"c6", CardType.lie⟩]

/-- A mid-game session: `p1` has just played a lie, `p2` is to move. -/
def gAcc : GameState :=
  { id := "ABC123", phase := GamePhase.playing, players := [pl1, pl2, pl3],
    currentPlayerId := "p2", centerPile := [⟨"c9", CardType.lie⟩],
    lastPlayedCard := some ⟨"c9", CardType.lie⟩, lastPlayerId := some "p1",
    events := [], turnTimer := 45, maxPlayers := 6, minPlayers := 2 }

/-- A finished two-player session (someone emptied their hand earlier). -/
def gFin : GameState :=
  { id := "FIN001", phase := GamePhase.finished, players := [pl1, pl2],
    currentPlayerId := "p1", centerPile := [⟨"c9", CardType.truth⟩],
    lastPlayedCard := some ⟨"c9", CardType.truth⟩, lastPlayerId := some "p2",
    events := [], turnTimer := 45, maxPlayers := 6, minPlayers := 2 }

/-- A playing session with `p1` to move and no card played yet. -/
def gPlay : GameState :=
  { id := "PLY001", phase := GamePhase.playing, players := [pl1, pl2, pl3],
    currentPlayerId := "p1", centerPile := [],
    events := [], turnTimer := 45, maxPlayers := 6, minPlayers := 2 }

/-- A waiting one-player session (as `createGame` leaves it). -/
def gWait : GameState :=
  { id := "WAI001", phase := GamePhase.waiting, players := [pl1],
    currentPlayerId := "p1", centerPile := [],
    events := [], turnTimer := 45, maxPlayers := 6, minPlayers := 2 }

/-! ## Claim theorems -/

/-- C2 (counterexample): the claim "no core operation ever transitions the
session's phase out of Finished" is false: on the finished session `gFin`,
`ContinueAfterRevelation` sets the phase back to `playing`. -/
theorem finished_not_terminal_counterexample :
    gFin.phase = GamePhase.finished ∧
      (continueAfterRevelation gFin).phase = GamePhase.playing :=
  ⟨rfl, rfl⟩

/-- C2 (amended): `Finished` is terminal under `PlayCard`, `AddPlayer` and
`RemovePlayer`; but `ContinueAfterRevelation` unconditionally resets the
phase to `Playing`, and a successful `AccusePlayer` sets it to
`Revelation`, even from `Finished`. -/
theorem finished_phase_amended (g : GameState) (hfin : g.phase = GamePhase.finished) :
    (∀ pid cid eid now g', playCard g pid cid eid now = Except.ok g' →
      g'.phase = GamePhase.finished) ∧
    (∀ player dids jf je se now g', addPlayerToGame g player dids jf je se now = Except.ok g' →
      g'.phase = GamePhase.finished) ∧
    (∀ pid eid now g', removePlayerFromGame g pid eid now = Except.ok g' →
      g'.phase = GamePhase.finished) ∧
    (continueAfterRevelation g).phase = GamePhase.playing ∧
    (∀ aid did pids prand eid now g', accusePlayer g aid did pids prand eid now = Except.ok g' →
      g'.phase = GamePhase.revelation) := by
  refine ⟨?_, ?_, ?_, rfl, ?_⟩
  · intro pid cid eid now g' h
    simp only [playCard] at h
    split at h
    · simp at h
    · split at h
      · simp at h
      · split at h
        · simp at h
        · split at h
          · simp only [Except.ok.injEq] at h
            subst h
            rfl
          · simp only [Except.ok.injEq] at h
            subst h
            simpa using hfin
  · intro player dids jf je se now g' h
    simp only [addPlayerToGame] at h
    split at h
    · simp at h
    · simp only [Except.ok.injEq] at h
      subst h
      simp [hfin]
  · intro pid eid now g' h
    simp only [removePlayerFromGame] at h
    split at h
    · simp at h
    · split at h
      · simp only [Except.ok.injEq] at h
        subst h
        rfl
      · simp only [Except.ok.injEq] at h
        subst h
        simpa using hfin
  · intro aid did pids prand eid now g' h
    simp only [accusePlayer] at h
    split at h
    · split at h
      · simp only [Except.ok.injEq] at h
        subst h
        rfl
      · simp at h
    · simp at h

/-- C2 witness for the amended theorem, instantiated at the concrete
finished session `gFin`. -/
theorem finished_phase_amended_witness :
    (continueAfterRevelation gFin).phase = GamePhase.playing :=
  (finished_phase_amended gFin rfl).2.2.2.1

/-- C3: `PlayCard` by a member of `players` who is not `currentPlayerId`
fails with `NotYourTurn`, and the stored session is unchanged (the handler
mutates nothing before this check, modelled by `resultState`). -/
theorem playCard_not_your_turn (g : GameState) (pid cid eid : String) (now : Nat)
    (p : Player) (hp : g.players.find? (fun q => q.id == pid) = some p)
    (hne : pid ≠ g.currentPlayerId) :
    playCard g pid cid eid now = Except.error ApiError.notYourTurn ∧
      resultState g (playCard g pid cid eid now) = g := by
  have h1 : playCard g pid cid eid now = Except.error ApiError.notYourTurn := by
    simp only [playCard, hp]
    simp [Ne.symm hne]
  exact ⟨h1, by rw [h1]; rfl⟩

/-- C3 witness: in `gAcc` it is `p2`'s turn, so `p1` (a member) is
rejected with `NotYourTurn` and the session is untouched. -/
theorem playCard_not_your_turn_witness :
    playCard gAcc "p1" "c1" "e" 0 = Except.error ApiError.notYourTurn ∧
      resultState gAcc (playCard gAcc "p1" "c1" "e" 0) = gAcc :=
  playCard_not_your_turn gAcc "p1" "c1" "e" 0 pl1 (by decide) (by decide)

/-- C4: `AccusePlayer` with `lastPlayedCard` or `lastPlayerId` unset fails
with `NoCardToAccuse` and leaves the session unchanged. -/
theorem accusePlayer_no_card (g : GameState) (aid did : String) (pids : Nat → String)
    (prand : Nat → Bool) (eid : String) (now : Nat)
    (h : g.lastPlayedCard = none ∨ g.lastPlayerId = none) :
    accusePlayer g aid did pids prand eid now = Except.error ApiError.noCardToAccuse ∧
      resultState g (accusePlayer g aid did pids prand eid now) = g := by
  have h1 : accusePlayer g aid did pids prand eid now = Except.error ApiError.noCardToAccuse := by
    rcases h with h | h
    · simp [accusePlayer, h]
    · cases hc : g.lastPlayedCard with
      | none => simp [accusePlayer, hc]
      | some c => simp [accusePlayer, hc, h]
  exact ⟨h1, by rw [h1]; rfl⟩

/-- C4 witness: `gPlay` has no last played card, so any accusation is
rejected and the session is untouched. -/
theorem accusePlayer_no_card_witness :
    accusePlayer gPlay "p2" "p1" (fun n => toString n) (fun _ => true) "e" 0 =
        Except.error ApiError.noCardToAccuse ∧
      resultState gPlay (accusePlayer gPlay "p2" "p1" (fun n => toString n) (fun _ => true) "e" 0) =
        gPlay :=
  accusePlayer_no_card gPlay "p2" "p1" (fun n => toString n) (fun _ => true) "e" 0
    (Or.inl (by rfl))

/-- C1 (counterexample): the claim "the 3 penalty cards go to the player
identified by `lastPlayerId` when the card was a lie, for any
`accusedPlayerId` naming a member" is false: in `gAcc` the last (lie) card
was played by `p1`, but accusing `p3` penalises `p3` (hand 2 → 5) and
leaves `p1`'s hand unchanged at 2. -/
theorem accusePlayer_target_counterexample :
    gAcc.lastPlayerId = some "p1" ∧
      Option.map Card.type gAcc.lastPlayedCard = some CardType.lie ∧
      Except.map (fun g => (handSize g "p1", handSize g "p3"))
          (accusePlayer gAcc "p2" "p3" (fun n => toString n) (fun _ => true) "e1" 0) =
        Except.ok (2, 5) :=
  ⟨rfl, rfl, by rfl⟩

/-- C1 (amended): a successful accusation penalises the party named by the
`accusedPlayerId` argument, not `lastPlayerId` (which is only checked for
presence): when the last played card is a lie the 3 penalty cards go to
the hand of the player found under `accusedPlayerId`, otherwise to the
accusing player; every other player's hand is unchanged. -/
theorem accusePlayer_penalty_target (g : GameState) (aid did : String)
    (pids : Nat → String) (prand : Nat → Bool) (eid : String) (now : Nat)
    (c : Card) (lp : String) (pa pd : Player)
    (hlc : g.lastPlayedCard = some c) (hlp : g.lastPlayerId = some lp)
    (ha : g.players.find? (fun q => q.id == aid) = some pa)
    (hd : g.players.find? (fun q => q.id == did) = some pd) :
    ∃ g', accusePlayer g aid did pids prand eid now = Except.ok g' ∧
      handSize g' (if c.type = CardType.lie then did else aid) =
        handSize g (if c.type = CardType.lie then did else aid) + 3 ∧
      ∀ pid, pid ≠ (if c.type = CardType.lie then did else aid) →
        handSize g' pid = handSize g pid := by
  have haid : pa.id = aid := by simpa using List.find?_some ha
  have hdid : pd.id = did := by simpa using List.find?_some hd
  have hpenlen : ((createPenaltyCards pids prand).take 3).length = 3 := by
    simp [createPenaltyCards]
  simp only [accusePlayer, hlc, hlp, ha, hd]
  refine ⟨_, rfl, ?_, ?_⟩
  · by_cases hlie : c.type = CardType.lie
    · simp only [if_pos hlie, hdid]
      have hfind := find?_updateFirst_self did
        (fun p => { p with
          cards := p.cards ++ (createPenaltyCards pids prand).take 3,
          cardCount := (p.cards ++ (createPenaltyCards pids prand).take 3).length })
        (fun q => rfl) g.players pd hd
      simp only [handSize, hfind, hd]
      simp [hpenlen]
    · simp only [if_neg hlie, haid]
      have hfind := find?_updateFirst_self aid
        (fun p => { p with
          cards := p.cards ++ (createPenaltyCards pids prand).take 3,
          cardCount := (p.cards ++ (createPenaltyCards pids prand).take 3).length })
        (fun q => rfl) g.players pa ha
      simp only [handSize, hfind, ha]
      simp [hpenlen]
  · intro pid hpid
    by_cases hlie : c.type = CardType.lie
    · simp only [if_pos hlie] at hpid ⊢
      have hfind := find?_updateFirst_ne pid did
        (fun p => { p with
          cards := p.cards ++ (createPenaltyCards pids prand).take 3,
          cardCount := (p.cards ++ (createPenaltyCards pids prand).take 3).length })
        (fun q => rfl) hpid g.players
      simp only [handSize, hdid, hfind]
    · simp only [if_neg hlie] at hpid ⊢
      have hfind := find?_updateFirst_ne pid aid
        (fun p => { p with
          cards := p.cards ++ (createPenaltyCards pids prand).take 3,
          cardCount := (p.cards ++ (createPenaltyCards pids prand).take 3).length })
        (fun q => rfl) hpid g.players
      simp only [handSize, haid, hfind]

/-- C1 witness for the amended theorem: accusing `p3` over `p1`'s lie in
`gAcc` penalises `p3` by exactly 3 cards and leaves the others unchanged. -/
theorem accusePlayer_penalty_target_witness :
    ∃ g', accusePlayer gAcc "p2" "p3" (fun n => toString n) (fun _ => true) "e1" 0 =
        Except.ok g' ∧
      handSize g' (if CardType.lie = CardType.lie then "p3" else "p2") =
        handSize gAcc (if CardType.lie = CardType.lie then "p3" else "p2") + 3 ∧
      ∀ pid, pid ≠ (if CardType.lie = CardType.lie then "p3" else "p2") →
        handSize g' pid = handSize gAcc pid :=
  accusePlayer_penalty_target gAcc "p2" "p3" (fun n => toString n) (fun _ => true) "e1" 0
    ⟨"c9", CardType.lie⟩ "p1" pl2 pl3 (by rfl) (by rfl) (by decide) (by decide)

theorem find?_findIndex {p : α → Bool} :
    ∀ {l : List α} {x : α}, l.find? p = some x →
      ∃ i, findIndex p l = some i ∧ l.get? i = some x := by
  intro l
  induction l with
  | nil => intro x h; simp at h
  | cons y ys ih =>
    intro x h
    cases hy : p y with
    | true =>
      simp only [List.find?_cons, hy] at h
      cases h
      exact ⟨0, by simp [findIndex, hy], rfl⟩
    | false =>
      simp only [List.find?_cons, hy] at h
      obtain ⟨i, hi, hg⟩ := ih h
      exact ⟨i + 1, by simp [findIndex, hy, hi], by simpa using hg⟩

/-- C5: on a successful `PlayCard` the chosen card is removed from the
player's hand and appended to `centerPile`, `lastPlayedCard`/`lastPlayerId`
are set to it and the player; if the hand is then empty the phase becomes
`finished` and the turn does not advance, otherwise the turn advances to
the next array index of `players`, circularly, and the phase is kept. -/
theorem playCard_success (g : GameState) (pid cid eid : String) (now : Nat)
    (p : Player) (i : Nat)
    (hp : g.players.find? (fun q => q.id == pid) = some p)
    (hcur : g.currentPlayerId = pid)
    (hci : findIndex (fun c => c.id == cid) p.cards = some i) :
    ∃ g', playCard g pid cid eid now = Except.ok g' ∧
      g'.centerPile = g.centerPile ++ [p.cards.getD i default] ∧
      g'.lastPlayedCard = some (p.cards.getD i default) ∧
      g'.lastPlayerId = some pid ∧
      g'.players.find? (fun q => q.id == pid) =
        some { p with cards := p.cards.eraseIdx i, cardCount := (p.cards.eraseIdx i).length } ∧
      (if (p.cards.eraseIdx i).length = 0 then
        g'.phase = GamePhase.finished ∧ g'.currentPlayerId = g.currentPlayerId
      else
        g'.phase = g.phase ∧
        ∃ ci, findIndex (fun q => q.id == pid) g.players = some ci ∧
          g'.currentPlayerId = (g.players.getD ((ci + 1) % g.players.length) default).id) := by
  have hfind := find?_updateFirst_self pid
    (fun q => { q with
      cards := p.cards.eraseIdx i,
      cardCount := (p.cards.eraseIdx i).length })
    (fun q => rfl) g.players p hp
  obtain ⟨ci, hciP, _⟩ := find?_findIndex hp
  simp only [playCard, hp, hcur, ne_eq, not_true_eq_false, ite_false, hci]
  by_cases hwin : (p.cards.eraseIdx i).length = 0
  · simp only [if_pos hwin]
    refine ⟨_, rfl, by simp, by simp, by simp, by simpa using hfind, ?_⟩
    simp
  · simp only [if_neg hwin]
    refine ⟨_, rfl, by simp, by simp, by simp, by simpa using hfind, ?_⟩
    refine ⟨rfl, ci, hciP, ?_⟩
    simp only [hciP]
    have := updateFirst_getD_id pid
      (fun q => { q with
        cards := p.cards.eraseIdx i,
        cardCount := (p.cards.eraseIdx i).length })
      (fun q => rfl) g.players ((ci + 1) % g.players.length)
    simpa using this

/-- C5 witness: in `gPlay`, `p1` (current) plays `c1`; the card moves to
the center pile, `lastPlayerId` becomes `p1` and the turn passes to `p2`. -/
theorem playCard_success_witness :
    ∃ g', playCard gPlay "p1" "c1" "e" 0 = Except.ok g' ∧
      g'.centerPile = gPlay.centerPile ++ [pl1.cards.getD 0 default] ∧
      g'.lastPlayedCard = some (pl1.cards.getD 0 default) ∧
      g'.lastPlayerId = some "p1" ∧
      g'.players.find? (fun q => q.id == "p1") =
        some { pl1 with
          cards := pl1.cards.eraseIdx 0,
          cardCount := (pl1.cards.eraseIdx 0).length } ∧
      (if (pl1.cards.eraseIdx 0).length = 0 then
        g'.phase = GamePhase.finished ∧ g'.currentPlayerId = gPlay.currentPlayerId
      else
        g'.phase = gPlay.phase ∧
        ∃ ci, findIndex (fun q => q.id == "p1") gPlay.players = some ci ∧
          g'.currentPlayerId = (gPlay.players.getD ((ci + 1) % gPlay.players.length) default).id) :=
  playCard_success gPlay "p1" "c1" "e" 0 pl1 0 (by decide) (by rfl) (by decide)

/-- C10: `PlayCard` checks no phase: in any phase, if the caller is the
current player and holds the card, it succeeds, and the resulting session
agrees field-by-field with the result of the same play in phase `playing`
(only the phase field differs, passing through the input phase unless the
win branch sets `finished`). -/
theorem playCard_any_phase (g : GameState) (ph : GamePhase) (pid cid eid : String)
    (now : Nat) (p : Player) (i : Nat)
    (hp : g.players.find? (fun q => q.id == pid) = some p)
    (hcur : g.currentPlayerId = pid)
    (hci : findIndex (fun c => c.id == cid) p.cards = some i) :
    ∃ g' g₀,
      playCard { g with phase := ph } pid cid eid now = Except.ok g' ∧
      playCard { g with phase := GamePhase.playing } pid cid eid now = Except.ok g₀ ∧
      g'.players = g₀.players ∧ g'.centerPile = g₀.centerPile ∧
      g'.currentPlayerId = g₀.currentPlayerId ∧
      g'.lastPlayedCard = g₀.lastPlayedCard ∧ g'.lastPlayerId = g₀.lastPlayerId ∧
      g'.events = g₀.events ∧
      g'.phase = (if (p.cards.eraseIdx i).length = 0 then GamePhase.finished else ph) := by
  simp only [playCard, hp, hcur, ne_eq, not_true_eq_false, ite_false, hci]
  by_cases hwin : (p.cards.eraseIdx i).length = 0
  · simp only [if_pos hwin]
    exact ⟨_, _, rfl, rfl, rfl, rfl, rfl, rfl, rfl, rfl, rfl⟩
  · simp only [if_neg hwin]
    exact ⟨_, _, rfl, rfl, rfl, rfl, rfl, rfl, rfl, rfl, rfl⟩

/-- C10 witness: on the finished session `gFin`, the current player `p1`
can still play `c1`, with the same effect as in phase `playing`. -/
theorem playCard_any_phase_witness :
    ∃ g' g₀,
      playCard { gFin with phase := GamePhase.finished } "p1" "c1" "e" 0 = Except.ok g' ∧
      playCard { gFin with phase := GamePhase.playing } "p1" "c1" "e" 0 = Except.ok g₀ ∧
      g'.players = g₀.players ∧ g'.centerPile = g₀.centerPile ∧
      g'.currentPlayerId = g₀.currentPlayerId ∧
      g'.lastPlayedCard = g₀.lastPlayedCard ∧ g'.lastPlayerId = g₀.lastPlayerId ∧
      g'.events = g₀.events ∧
      g'.phase = (if (pl1.cards.eraseIdx 0).length = 0 then GamePhase.finished
        else GamePhase.finished) :=
  playCard_any_phase gFin GamePhase.finished "p1" "c1" "e" 0 pl1 0
    (by decide) (by rfl) (by decide)

/-- C6: a successful `PlayCard` leaves the session's total card count
(hands plus center pile) unchanged, and a successful `AccusePlayer`
increases it by exactly 3 (the penalty batch). -/
theorem card_conservation :
    (∀ g pid cid eid now g', playCard g pid cid eid now = Except.ok g' →
      totalCards g' = totalCards g) ∧
    (∀ g aid did pids prand eid now g',
      accusePlayer g aid did pids prand eid now = Except.ok g' →
      totalCards g' = totalCards g + 3) := by
  constructor
  · intro g pid cid eid now g' h
    simp only [playCard] at h
    split at h
    · simp at h
    · rename_i p hp
      split at h
      · simp at h
      · split at h
        · simp at h
        · rename_i i hi
          have hlen : i < p.cards.length := findIndex_lt_length hi
          have hsum := handsSum_updateFirst pid
            (fun q => { q with
              cards := p.cards.eraseIdx i,
              cardCount := (p.cards.eraseIdx i).length })
            g.players p hp
          have hsum2 : handsSum (updateFirst pid
              (fun q => { q with
                cards := p.cards.eraseIdx i,
                cardCount := (p.cards.eraseIdx i).length })
              g.players) + p.cards.length =
              handsSum g.players + (p.cards.eraseIdx i).length := by
            simpa using hsum
          have herase : (p.cards.eraseIdx i).length = p.cards.length - 1 := by
            rw [List.length_eraseIdx]
            simp [hlen]
          split at h
          · simp only [Except.ok.injEq] at h
            subst h
            simp only [totalCards, List.length_append, List.length_cons, List.length_nil]
            omega
          · simp only [Except.ok.injEq] at h
            subst h
            simp only [totalCards, List.length_append, List.length_cons, List.length_nil]
            omega
  · intro g aid did pids prand eid now g' h
    simp only [accusePlayer] at h
    split at h
    · rename_i c lp hc hlp
      split at h
      · rename_i pa pd hpa hpd
        simp only [Except.ok.injEq] at h
        subst h
        have hpenlen : ((createPenaltyCards pids prand).take 3).length = 3 := by
          simp [createPenaltyCards]
        have haid : pa.id = aid := by simpa using List.find?_some hpa
        have hdid : pd.id = did := by simpa using List.find?_some hpd
        by_cases hlie : c.type = CardType.lie
        · rw [if_pos hlie] at *
          have hsum := handsSum_updateFirst pd.id
            (fun p => { p with
              cards := p.cards ++ (createPenaltyCards pids prand).take 3,
              cardCount := (p.cards ++ (createPenaltyCards pids prand).take 3).length })
            g.players pd (by rw [hdid]; exact hpd)
          dsimp only at hsum
          rw [List.length_append, hpenlen] at hsum
          simp only [totalCards]
          omega
        · rw [if_neg hlie] at *
          have hsum := handsSum_updateFirst pa.id
            (fun p => { p with
              cards := p.cards ++ (createPenaltyCards pids prand).take 3,
              cardCount := (p.cards ++ (createPenaltyCards pids prand).take 3).length })
            g.players pa (by rw [haid]; exact hpa)
          dsimp only at hsum
          rw [List.length_append, hpenlen] at hsum
          simp only [totalCards]
          omega
      · simp at h
    · simp at h

/-- C6 witness: a concrete play in `gPlay` conserves the total, and a
concrete accusation in `gAcc` adds exactly 3 cards. -/
theorem card_conservation_witness :
    totalCards (resultState gPlay (playCard gPlay "p1" "c1" "e" 0)) = totalCards gPlay ∧
      totalCards (resultState gAcc
          (accusePlayer gAcc "p2" "p3" (fun n => toString n) (fun _ => true) "e1" 0)) =
        totalCards gAcc + 3 :=
  ⟨card_conservation.1 gPlay "p1" "c1" "e" 0 _ (by rfl),
    card_conservation.2 gAcc "p2" "p3" (fun n => toString n) (fun _ => true) "e1" 0 _ (by rfl)⟩

/-- C7: when `AddPlayer` on a `Waiting` session brings membership up to
`minPlayers` (capacity permitting), the result is in phase `Playing` and
exactly two events were appended: the `join` event and a single
`game_start` event — the duplicated start branch in the source adds no
second event, because the first branch has already left `Waiting`. -/
theorem addPlayer_starts_once (g : GameState) (player : Player) (dids : Nat → String)
    (jf : Nat → Nat) (je se : String) (now : Nat)
    (hw : g.phase = GamePhase.waiting)
    (hmin : g.players.length + 1 = g.minPlayers)
    (hmax : g.players.length < g.maxPlayers) :
    ∃ g', addPlayerToGame g player dids jf je se now = Except.ok g' ∧
      g'.phase = GamePhase.playing ∧
      ∃ ej es, g'.events = g.events ++ [ej, es] ∧
        ej.type = EventType.join ∧ es.type = EventType.game_start := by
  simp only [addPlayerToGame]
  rw [if_neg (by omega)]
  have hc1 : ((g.players ++
      [{ player with
        cards := (createDeck dids jf).take 7,
        cardCount := ((createDeck dids jf).take 7).length }]).length ≥ g.minPlayers ∧
      g.phase = GamePhase.waiting) := by
    constructor
    · simp only [List.length_append, List.length_cons, List.length_nil]
      omega
    · exact hw
  rw [if_pos hc1]
  rw [if_neg (by
    intro hcon
    exact absurd hcon.2 (by simp))]
  refine ⟨_, rfl, rfl, ?_⟩
  refine ⟨mkEvent je EventType.join player.id player.name now
      (player.name ++ " a rejoint la partie"),
    mkEvent se EventType.game_start "" "" now
      ("La partie commence avec " ++
        toString (g.players ++
          [{ player with
            cards := (createDeck dids jf).take 7,
            cardCount := ((createDeck dids jf).take 7).length }]).length ++ " joueurs !"),
    ?_, rfl, rfl⟩
  simp

/-- C7 witness: joining `gWait` (1 player, `minPlayers = 2`) starts the
game with exactly one `game_start` event. -/
theorem addPlayer_starts_once_witness :
    ∃ g', addPlayerToGame gWait pl2 (fun n => toString n) (fun _ => 0) "je" "se" 0 =
        Except.ok g' ∧
      g'.phase = GamePhase.playing ∧
      ∃ ej es, g'.events = gWait.events ++ [ej, es] ∧
        ej.type = EventType.join ∧ es.type = EventType.game_start :=
  addPlayer_starts_once gWait pl2 (fun n => toString n) (fun _ => 0) "je" "se" 0
    (by rfl) (by rfl) (by decide)

/-- C8: every deck produced by `createDeck` has exactly 60 cards, 30 of
each kind, and (given that the id supply never repeats over its 60 draws,
as `randomUUID` guarantees) pairwise distinct ids. -/
theorem createDeck_spec (ids : Nat → String) (jf : Nat → Nat)
    (hids : ((List.range 60).map ids).Nodup) :
    (createDeck ids jf).length = 60 ∧
    (createDeck ids jf).countP (fun c => c.type == CardType.truth) = 30 ∧
    (createDeck ids jf).countP (fun c => c.type == CardType.lie) = 30 ∧
    ((createDeck ids jf).map Card.id).Nodup := by
  have hperm := createDeck_perm ids jf
  refine ⟨?_, ?_, ?_, ?_⟩
  · rw [hperm.length_eq]
    simp
  · rw [hperm.countP_eq]
    simp [List.countP_append, List.countP_map, Function.comp_def, List.countP_eq_length]
  · rw [hperm.countP_eq]
    simp [List.countP_append, List.countP_map, Function.comp_def, List.countP_eq_length]
  · rw [List.Perm.nodup_iff (hperm.map Card.id)]
    have hbase : (((List.range 30).map (fun i => (⟨ids i, CardType.truth⟩ : Card)) ++
        (List.range 30).map (fun i => (⟨ids (30 + i), CardType.lie⟩ : Card))).map Card.id) =
        (List.range 60).map ids := by
      rw [show (60 : Nat) = 30 + 30 from rfl, List.range_add]
      simp [List.map_map, Function.comp_def]
    rw [hbase]
    exact hids

/-- C8 witness: a concrete injective id supply (decimal numerals) yields a
deck with the stated counts and distinct ids. -/
theorem createDeck_spec_witness :
    ((List.range 60).map (fun n => toString n)).Nodup ∧
      ((createDeck (fun n => toString n) (fun n => n)).length = 60 ∧
        (createDeck (fun n => toString n) (fun n => n)).countP
          (fun c => c.type == CardType.truth) = 30 ∧
        (createDeck (fun n => toString n) (fun n => n)).countP
          (fun c => c.type == CardType.lie) = 30 ∧
        ((createDeck (fun n => toString n) (fun n => n)).map Card.id).Nodup) :=
  ⟨by decide, createDeck_spec (fun n => toString n) (fun n => n) (by decide)⟩

/-- C9: every core operation preserves (or establishes) the invariant that
each player's stored `cardCount` equals the length of their hand. -/
theorem cardCount_consistency :
    (∀ host gid dids jf eid now, handCountsOk (createGame host gid dids jf eid now)) ∧
    (∀ g player dids jf je se now g', handCountsOk g →
      addPlayerToGame g player dids jf je se now = Except.ok g' → handCountsOk g') ∧
    (∀ g pid eid now g', handCountsOk g →
      removePlayerFromGame g pid eid now = Except.ok g' → handCountsOk g') ∧
    (∀ g pid cid eid now g', handCountsOk g →
      playCard g pid cid eid now = Except.ok g' → handCountsOk g') ∧
    (∀ g aid did pids prand eid now g', handCountsOk g →
      accusePlayer g aid did pids prand eid now = Except.ok g' → handCountsOk g') ∧
    (∀ g, handCountsOk g → handCountsOk (continueAfterRevelation g)) := by
  refine ⟨?_, ?_, ?_, ?_, ?_, ?_⟩
  · intro host gid dids jf eid now p hp
    simp only [createGame, List.mem_singleton] at hp
    subst hp
    dsimp only
  · intro g player dids jf je se now g' hOk h
    simp only [addPlayerToGame] at h
    split at h
    · simp at h
    · simp only [Except.ok.injEq] at h
      subst h
      intro p hp
      have hmem : p ∈ g.players ++
          [{ player with
            cards := (createDeck dids jf).take 7,
            cardCount := ((createDeck dids jf).take 7).length }] := by
        split at hp
        · split at hp
          · exact hp
          · exact hp
        · exact hp
      rcases List.mem_append.mp hmem with hmem | hmem
      · exact hOk p hmem
      · simp only [List.mem_singleton] at hmem
        subst hmem
        dsimp only
  · intro g pid eid now g' hOk h
    simp only [removePlayerFromGame] at h
    split at h
    · simp at h
    · split at h
      · simp only [Except.ok.injEq] at h
        subst h
        intro p hp
        exact hOk p ((List.eraseIdx_sublist _ _).subset hp)
      · simp only [Except.ok.injEq] at h
        subst h
        intro p hp
        exact hOk p ((List.eraseIdx_sublist _ _).subset hp)
  · intro g pid cid eid now g' hOk h
    simp only [playCard] at h
    split at h
    · simp at h
    · rename_i p hp
      split at h
      · simp at h
      · split at h
        · simp at h
        · rename_i i hi
          split at h
          · simp only [Except.ok.injEq] at h
            subst h
            exact handCountsOk_updateFirst pid _ (fun q => rfl) g.players hOk
          · simp only [Except.ok.injEq] at h
            subst h
            exact handCountsOk_updateFirst pid _ (fun q => rfl) g.players hOk
  · intro g aid did pids prand eid now g' hOk h
    simp only [accusePlayer] at h
    split at h
    · split at h
      · simp only [Except.ok.injEq] at h
        subst h
        exact handCountsOk_updateFirst _ _ (fun q => rfl) g.players hOk
      · simp at h
    · simp at h
  · intro g hOk p hp
    exact hOk p hp

/-- C9 witness: a concrete play on `gPlay` (which satisfies the invariant)
keeps every stored count equal to the hand length. -/
theorem cardCount_consistency_witness :
    handCountsOk (resultState gPlay (playCard gPlay "p1" "c1" "e" 0)) :=
  cardCount_consistency.2.2.2.1 gPlay "p1" "c1" "e" 0 _ (by decide) (by rfl)
